import Mathlib

/-!
# uptime-goat-node: the drift-corrected scheduling engine of `src/app/index.js`

A shallow embedding of the scheduler of `index.js` and proofs about it.

Modelling conventions

* JavaScript numbers that hold epoch milliseconds, deviations and counters are
  integers (`Int`, `Nat`).  A double represents every integer of absolute value
  below `2 ^ 53` exactly and `Date.now()` never leaves that range.  Where a number
  is made from text or turned into text (`parseInt`, `toString`) and where two
  doubles are multiplied (`Math.random() * 60001`) the result is rounded to the
  nearest double, ties to even (`roundToDouble`).
* `Math.random()` is a double `mantissa / 2 ^ exponent` in `[0, 1)`.
* Everything the program reads from its surroundings (the clock, the random
  generator, the file system, the network) is an explicit argument of the
  function that reads it.
* The transport and `JSON.parse` are summarised by what the program
  distinguishes of their results (`HttpEvent`, `ReportBody`, `EndpointsBody`).
-/

namespace UptimeGoat

/-! ## JavaScript values -/

/-- The JavaScript values the scheduler computes with: `undefined`, `null`, `NaN`,
the two infinities and integral numbers. -/
inductive JsValue where
  | undefined
  | null
  | nan
  | infinity (negative : Bool)
  | num (n : Int)
  deriving DecidableEq, Repr

namespace JsValue

/-- Boolean coercion (`if (v)`, `v && ...`, `!v`). -/
def truthy : JsValue → Bool
  | undefined => false
  | null => false
  | nan => false
  | infinity _ => true
  | num n => n != 0

/-- The operation `ToNumber`: `undefined` becomes `NaN`, `null` becomes `0`. -/
def toNumber : JsValue → JsValue
  | undefined => nan
  | null => num 0
  | nan => nan
  | infinity negative => infinity negative
  | num n => num n

/-- The function `Math.abs`. -/
def mathAbs (v : JsValue) : JsValue :=
  match v.toNumber with
  | num n => num |n|
  | infinity _ => infinity false
  | _ => nan

/-- The comparison `v > k` for a numeric literal `k`; it is false on `NaN`. -/
def gt (v : JsValue) (k : Int) : Bool :=
  match v.toNumber with
  | num n => decide (k < n)
  | infinity negative => !negative
  | _ => false

/-- The comparison `v < k` for a numeric literal `k`; it is false on `NaN`. -/
def lt (v : JsValue) (k : Int) : Bool :=
  match v.toNumber with
  | num n => decide (n < k)
  | infinity negative => negative
  | _ => false

/-- The comparison `v >= k` for a numeric literal `k`; it is false on `NaN`. -/
def ge (v : JsValue) (k : Int) : Bool :=
  match v.toNumber with
  | num n => decide (k ≤ n)
  | infinity negative => !negative
  | _ => false

/-- The test `v !== null`. -/
def notNull : JsValue → Bool
  | null => false
  | _ => true

end JsValue

/-! ## The report exchange (`sendGoatReport`) -/

/-- The object a report exchange resolves to, `{ success, deviation }`.  The
`error` handler resolves `{ success: false }`, whose `deviation` is `undefined`. -/
structure ReportOutcome where
  success : Bool
  deviation : JsValue
  deriving DecidableEq, Repr

/-- What `JSON.parse(data)` and the two property reads of `sendGoatReport` see in
the body of a response. -/
inductive ReportBody where
  /-- The body is not JSON: `JSON.parse` throws. -/
  | unparsable
  /-- The body is the JSON value `null`: reading `parsedData.name` throws. -/
  | jsonNull
  /-- Any other JSON value, with its `name` field and its numeric `ms_deviation`
  field when it has them. -/
  | value (name : Option String) (msDeviation : Option Int)
  deriving DecidableEq, Repr

/-- What happens to the request of one report exchange. -/
inductive HttpReport where
  /-- The call `new URL(url)` throws. -/
  | invalidUrl
  /-- The request emits `error`. -/
  | connectionError
  /-- The request emits `timeout` (55 s). -/
  | timeout
  /-- The response ends with this status code and body. -/
  | response (statusCode : Nat) (body : ReportBody)
  deriving DecidableEq, Repr

/-- The expression `parsedData.ms_deviation || 0`: a missing field is `undefined`,
and `undefined` and `0` are both falsy. -/
def deviationOrZero (msDeviation : Option Int) : JsValue :=
  match msDeviation with
  | some d => if (JsValue.num d).truthy then JsValue.num d else JsValue.num 0
  | none => JsValue.num 0

/-- The function `sendGoatReport`, as a function of what happens to its request.
The promise it returns is only ever resolved, never rejected. -/
def sendGoatReport (ev : HttpReport) : ReportOutcome :=
  match ev with
  | .response statusCode body =>
    if statusCode = 200 then
      match body with
      | .value _ msDeviation => { success := true, deviation := deviationOrZero msDeviation }
      | .jsonNull => { success := false, deviation := .null }
      | .unparsable => { success := false, deviation := .null }
    else
      { success := false, deviation := .null }
  | .connectionError => { success := false, deviation := .undefined }
  | .timeout => { success := false, deviation := .null }
  | .invalidUrl => { success := false, deviation := .null }

/-! ## The deviation heuristic (`goatReportLoop`) -/

/-- The array `validDeviations` of `goatReportLoop`. -/
def validDeviations (results : List ReportOutcome) : List JsValue :=
  (results.filter (fun r => r.success && r.deviation.notNull)).map (fun r => r.deviation)

/-- The flag `needsExtraDelay` computed by `goatReportLoop` from the settled
results of `Promise.all`. -/
def needsExtraDelay (results : List ReportOutcome) : Bool :=
  let valid := validDeviations results
  let allDeviationsHigh := decide (valid.length > 0) && valid.all (fun d => d.mathAbs.gt 1000)
  let someDeviationUnder2000 := valid.any (fun d => d.mathAbs.lt 2000)
  allDeviationsHigh && someDeviationUnder2000

/-- The value `runReportCycle` gives `extraDelay` from the result of `goatReportLoop`. -/
def extraDelayOf (needs : Bool) : Int :=
  if needs then 1000 else 0

/-- The outcomes of successful exchanges that report the given deviations. -/
def successes (ds : List Int) : List ReportOutcome :=
  ds.map (fun d => { success := true, deviation := .num d })

/-! ## The endpoint directory (`makeRequest`, `fetchEndpoints`) -/

/-- The mapping from target name to URL held in the variable `endpoints`: the own
keys of the object, in the order of `Object.keys`, with their values. -/
abbrev EndpointSet := List (String × String)

/-- What `JSON.parse(response.data)` and the validity test of `fetchEndpoints` see
in the endpoints document. -/
inductive EndpointsBody where
  /-- The body is not JSON: `JSON.parse` throws. -/
  | unparsable
  /-- A falsy JSON value: `null`, `false`, `0` or the empty string. -/
  | falsy
  /-- A truthy JSON value whose `typeof` is not `object`. -/
  | nonObject
  /-- A JSON object (or array) with these keys and values. -/
  | object (entries : EndpointSet)
  deriving DecidableEq, Repr

/-- What happens to the request `makeRequest` issues. -/
inductive HttpEvent where
  /-- The call `new URL(urlString)` throws. -/
  | invalidUrl
  /-- The request emits `error`. -/
  | connectionError
  /-- The request emits `timeout`. -/
  | timeout
  /-- The response ends with this status code and body. -/
  | response (statusCode : Nat) (body : EndpointsBody)
  deriving DecidableEq, Repr

/-- The function `makeRequest`: the promise resolves with the body on status 200 and
rejects otherwise. -/
def makeRequest (ev : HttpEvent) : Except String EndpointsBody :=
  match ev with
  | .response statusCode body =>
    if statusCode = 200 then .ok body else .error "Request failed with status"
  | .connectionError => .error "connection error"
  | .timeout => .error "Request timeout"
  | .invalidUrl => .error "Invalid URL"

/-- The function `fetchEndpoints`; `none` is its `null`. -/
def fetchEndpoints (ev : HttpEvent) : Option EndpointSet :=
  match makeRequest ev with
  | .ok body =>
    match body with
    | .unparsable => none
    | .falsy => none
    | .nonObject => none
    | .object endpoints => some endpoints
  | .error _ => none

/-! ## The continuation store (`saveTimestamp`, `loadTimestamp`) -/

/-- The number of bits `n` has beyond 53: the least `s` with `n / 2 ^ s < 2 ^ 53`
(the first argument bounds the search and `n` itself is enough). -/
def excessBits : Nat → Nat → Nat
  | 0, _ => 0
  | fuel + 1, n => if n < 2 ^ 53 then 0 else excessBits fuel (n / 2) + 1

/-- The integer nearest to `n` that a double holds: `n` itself below `2 ^ 53`, and
above it `n` rounded to 53 significant bits, a tie going to the even significand.  A
result of `2 ^ 1024` or more stands for an overflow. -/
def roundToDouble (n : Nat) : Nat :=
  if n < 2 ^ 53 then n
  else
    let shift := excessBits n n
    let q := n / 2 ^ shift
    let r := n % 2 ^ shift
    let half := 2 ^ (shift - 1)
    if r > half ∨ (r = half ∧ q % 2 = 1) then (q + 1) * 2 ^ shift else q * 2 ^ shift

/-- Whether a rounded integer is below `2 ^ 1024`, the doubles being finite up to
`(2 ^ 53 - 1) * 2 ^ 971`. -/
def isFiniteDouble (x : Nat) : Bool :=
  decide (excessBits x x ≤ 971)

/-- The Number value of the mathematical integer `n`, with its sign: the nearest
double, or an infinity from `2 ^ 1024` on. -/
def numberOfNat (negative : Bool) (n : Nat) : JsValue :=
  if isFiniteDouble (roundToDouble n) then
    .num (if negative then -(roundToDouble n : Int) else (roundToDouble n : Int))
  else .infinity negative

/-- The decimal with `k` significant digits that is nearest to the double `x`, if it
denotes `x` (if it rounds to `x`); of two such decimals the nearer one, and the one
with the even last digit when they are as near. -/
def shortestCandidate (x k : Nat) : Option Nat :=
  let p := 10 ^ ((Nat.toDigits 10 x).length - k)
  let lo := x / p * p
  let hi := lo + p
  let okLo := decide (roundToDouble lo = x)
  let okHi := decide (roundToDouble hi = x)
  if okLo && okHi then
    if x - lo < hi - x then some lo
    else if hi - x < x - lo then some hi
    else if (x / p) % 2 = 0 then some lo else some hi
  else if okLo then some lo
  else if okHi then some hi
  else none

/-- The decimal with the fewest significant digits that denotes the double `x`;
seventeen digits always suffice. -/
def shortestDecimal (x : Nat) : Nat :=
  (((List.range 17).filterMap (fun i => shortestCandidate x (i + 1))).head?).getD x

/-- The digits without the zeros at their end. -/
def stripTrailingZeros (digits : List Char) : List Char :=
  (digits.reverse.dropWhile (fun c => c = '0')).reverse

/-- The method `Number.prototype.toString` on the Number value of an integer: below
`2 ^ 53` its decimal digits; from there on the digits of the shortest decimal that
denotes the double; from `10 ^ 21` on these digits in exponent form; a minus sign
first when negative. -/
def numberToString (n : Int) : String :=
  let sign : List Char := if n < 0 then ['-'] else []
  let x := roundToDouble n.natAbs
  if isFiniteDouble x then
    let c := if x < 2 ^ 53 then x else shortestDecimal x
    let digits := Nat.toDigits 10 c
    if digits.length ≤ 21 then String.mk (sign ++ digits)
    else
      match stripTrailingZeros digits with
      | [] => String.mk (sign ++ digits)
      | [d] => String.mk (sign ++ d :: 'e' :: '+' :: Nat.toDigits 10 (digits.length - 1))
      | d :: rest =>
        String.mk (sign ++ d :: '.' :: rest ++ 'e' :: '+' :: Nat.toDigits 10 (digits.length - 1))
  else String.mk (sign ++ "Infinity".data)

/-- The white space `parseInt` skips at the start of its argument (the white space
and line terminator code points of ECMAScript). -/
def isStrWhiteSpace (c : Char) : Bool :=
  let n := c.toNat
  n = 0x09 || n = 0x0A || n = 0x0B || n = 0x0C || n = 0x0D || n = 0x20 || n = 0xA0 ||
    n = 0x1680 || (0x2000 ≤ n && n ≤ 0x200A) || n = 0x2028 || n = 0x2029 || n = 0x202F ||
    n = 0x205F || n = 0x3000 || n = 0xFEFF

/-- The value of a character as a digit of `parseInt`: `0-9`, then `a-z` or `A-Z`
for ten to thirty-five. -/
def digitValue (c : Char) : Option Nat :=
  let n := c.toNat
  if 48 ≤ n ∧ n ≤ 57 then some (n - 48)
  else if 97 ≤ n ∧ n ≤ 122 then some (n - 97 + 10)
  else if 65 ≤ n ∧ n ≤ 90 then some (n - 65 + 10)
  else none

/-- Whether a character is a digit of the given radix. -/
def isRadixDigit (radix : Nat) (c : Char) : Bool :=
  match digitValue c with
  | some v => decide (v < radix)
  | none => false

/-- The integer a list of digits denotes in the given radix. -/
def digitsValue (radix : Nat) (digits : List Char) : Nat :=
  digits.foldl (fun acc c => acc * radix + (digitValue c).getD 0) 0

/-- The global function `parseInt` called with one argument, on the characters of
the string: white space, a sign, the `0x` of a hexadecimal number, then the longest
run of digits, whose value is rounded to a double. -/
def parseIntChars (input : List Char) : JsValue :=
  let trimmed := input.dropWhile isStrWhiteSpace
  let signed : Bool × List Char :=
    match trimmed with
    | '-' :: rest => (true, rest)
    | '+' :: rest => (false, rest)
    | _ => (false, trimmed)
  let based : Nat × List Char :=
    match signed.2 with
    | '0' :: 'x' :: rest => (16, rest)
    | '0' :: 'X' :: rest => (16, rest)
    | _ => (10, signed.2)
  let digits := based.2.takeWhile (isRadixDigit based.1)
  if digits.isEmpty then .nan else numberOfNat signed.1 (digitsValue based.1 digits)

/-- The global function `parseInt` called with one argument. -/
def parseInt (input : String) : JsValue :=
  parseIntChars input.data

/-- The function `saveTimestamp`, on the content of the timestamp file (`none` when
the file does not exist): a write that fails is caught and leaves the file as it was. -/
def saveTimestamp (file : Option String) (writeOk : Bool) (timestamp : Int) : Option String :=
  if writeOk then some (numberToString timestamp) else file

/-- The function `loadTimestamp`, on the content of the timestamp file; `none` is a
file that cannot be read, for which `readFile` throws. -/
def loadTimestamp (file : Option String) : JsValue :=
  match file with
  | some data => parseInt data
  | none => .null

/-! ## Startup (`validateHex`, `main`) -/

/-- The test of `validateHex`: the value is present, has 32 characters and all of
them are hexadecimal digits of either case (`none` is an unset variable).  When it
fails the process exits with status 1. -/
def validateHex (value : Option String) : Bool :=
  match value with
  | some v => decide (v.length = 32) && v.data.all (isRadixDigit 16)
  | none => false

/-- The three arms of the startup decision of `main`. -/
inductive StartupBranch where
  /-- The saved target is at least one second ahead: the streak is kept. -/
  | resuming
  /-- The saved target is ahead by less than one second. -/
  | tooClose
  /-- There is no saved target, or it is not in the future. -/
  | freshStart
  deriving DecidableEq, Repr

/-- What the startup decision does: the arm taken, the delay handed to `setTimeout`
for the one sleep (`setTimeoutDelay` gives the time the timer then waits), how many
times `Math.random` is called, and the first `nextTargetTime`. -/
structure Startup where
  branch : StartupBranch
  sleepMs : Int
  randomDraws : Nat
  nextTargetTime : Int
  deriving DecidableEq, Repr

/-- A double in `[0, 1)`, as `Math.random` returns one: `mantissa / 2 ^ exponent`. -/
structure UnitDouble where
  mantissa : Nat
  exponent : Nat
  deriving DecidableEq, Repr

/-- The pairs that denote a double below 1: a significand of at most 53 bits over a
power of two no smaller than the smallest subnormal. -/
def UnitDouble.valid (r : UnitDouble) : Prop :=
  r.mantissa < 2 ^ 53 ∧ r.mantissa < 2 ^ r.exponent ∧ r.exponent ≤ 1074

instance (r : UnitDouble) : Decidable r.valid := by
  unfold UnitDouble.valid
  infer_instance

/-- The expression `Math.floor(Math.random() * 60001) + 10000`: the product is the
double nearest to `mantissa * 60001 / 2 ^ exponent`. -/
def initialSleep (random : UnitDouble) : Int :=
  ((roundToDouble (random.mantissa * 60001) / 2 ^ random.exponent : Nat) : Int) + 10000

/-- Whether `new Date(time).toISOString()` throws a `RangeError`: it does unless
`time` is a finite number of absolute value at most 8.64e15. -/
def toISOStringThrows (time : JsValue) : Bool :=
  match time.toNumber with
  | .num n => decide (|n| > 8640000000000000)
  | _ => true

/-- The delay a timer of Node really waits when `setTimeout` is given `ms`: a delay
above `2 ^ 31 - 1` or below 1 is set to 1. -/
def setTimeoutDelay (ms : Int) : Int :=
  if ms > 2147483647 ∨ ms < 1 then 1 else ms

/-- The startup decision of `main` (the lines from `loadTimestamp` to the last
assignment of `nextTargetTime`): `saved` is the value `loadTimestamp` returned, `now`
the clock read before the decision, `random` the value `Math.random` returns if it is
called and `nowAfterSleep` the clock read after the randomized sleep.  The result is
`none` when the log of the loaded target throws. -/
def startup (saved : JsValue) (now : Int) (random : UnitDouble) (nowAfterSleep : Int) :
    Option Startup :=
  if saved.truthy && toISOStringThrows saved then none
  else
    match saved with
    | .num savedNextTime =>
      if (JsValue.num savedNextTime).truthy && decide (savedNextTime > now) then
        let timeUntilNext := savedNextTime - now
        if timeUntilNext ≥ 1000 then
          some { branch := .resuming, sleepMs := timeUntilNext, randomDraws := 0,
                 nextTargetTime := savedNextTime }
        else
          some { branch := .tooClose, sleepMs := initialSleep random, randomDraws := 1,
                 nextTargetTime := nowAfterSleep + 60000 }
      else
        some { branch := .freshStart, sleepMs := initialSleep random, randomDraws := 1,
               nextTargetTime := nowAfterSleep + 60000 }
    | _ =>
      some { branch := .freshStart, sleepMs := initialSleep random, randomDraws := 1,
             nextTargetTime := nowAfterSleep + 60000 }

/-- The variables of `main` that the cycles share, and the timestamp file. -/
structure SchedulerState where
  /-- The variable `endpoints`; `none` is a missing set. -/
  endpoints : Option EndpointSet
  cycleCount : Nat
  nextTargetTime : Int
  /-- The content of the timestamp file, `none` when it cannot be read. -/
  file : Option String
  deriving DecidableEq, Repr

/-- What a process start reads from its surroundings. -/
structure StartupEnv where
  goatId : Option String
  goatKey : Option String
  /-- What happens to the endpoints request of the startup. -/
  initialFetch : HttpEvent
  /-- The content of the timestamp file. -/
  file : Option String
  /-- The clock read after `loadTimestamp`. -/
  now : Int
  /-- The value of `Math.random()`. -/
  random : UnitDouble
  /-- The clock read after the randomized sleep. -/
  nowAfterSleep : Int

/-- The function `main` up to the first call of `runReportCycle`: `none` is
`process.exit(1)`, called by `validateHex`, after a failed fetch of the endpoints, or
by the handler of a rejected `main` when the log of the loaded target throws;
otherwise the startup decision and the state the first cycle starts from. -/
def main (env : StartupEnv) : Option (Startup × SchedulerState) :=
  if !validateHex env.goatId then none
  else if !validateHex env.goatKey then none
  else
    match fetchEndpoints env.initialFetch with
    | none => none
    | some endpoints =>
      let savedNextTime := loadTimestamp env.file
      match startup savedNextTime env.now env.random env.nowAfterSleep with
      | none => none
      | some st =>
        some (st, { endpoints := some endpoints, cycleCount := 0,
                    nextTargetTime := st.nextTargetTime, file := env.file })

/-! ## The report cycle (`goatReportLoop`, `runReportCycle`) -/

/-- What one cycle reads from its surroundings. -/
structure CycleEnv where
  /-- What happens to the report request sent to a target, by name and URL. -/
  exchange : String → String → HttpReport
  /-- An error thrown while `goatReportLoop` runs, if any. -/
  dispatchError : Option String
  /-- What happens to the endpoints request, when the cycle issues one. -/
  refresh : HttpEvent
  /-- Whether `fs.writeFile` succeeds. -/
  writeOk : Bool
  /-- The clock read after `saveTimestamp`. -/
  now : Int

/-- The settled results of `Promise.all` in `goatReportLoop`: one outcome for each
server name. -/
def dispatch (exchange : String → String → HttpReport) (endpoints : EndpointSet) :
    List ReportOutcome :=
  endpoints.map (fun entry => sendGoatReport (exchange entry.1 entry.2))

/-- The function `goatReportLoop`: its field `needsExtraDelay`, or the error
thrown while it runs. -/
def goatReportLoop (env : CycleEnv) (endpoints : EndpointSet) : Except String Bool :=
  match env.dispatchError with
  | some err => .error err
  | none => .ok (needsExtraDelay (dispatch env.exchange endpoints))

/-- The variables the `try` block of `runReportCycle` has assigned when control
leaves it, and what it did. -/
structure CycleBody where
  extraDelay : Int
  cycleCount : Nat
  endpoints : Option EndpointSet
  /-- Whether `goatReportLoop` was called. -/
  dispatched : Bool
  /-- Whether `fetchEndpoints` was called. -/
  refreshAttempted : Bool
  /-- Whether the `catch` clause ran. -/
  caught : Bool
  deriving DecidableEq, Repr

/-- The second half of the `try` block: the increment of `cycleCount` and the
refresh of the endpoints. -/
def refreshStep (s : SchedulerState) (env : CycleEnv) (extraDelay : Int) (dispatched : Bool) :
    CycleBody :=
  let cycleCount := s.cycleCount + 1
  if cycleCount % 10 = 0 then
    match fetchEndpoints env.refresh with
    | some newEndpoints =>
      { extraDelay := extraDelay, cycleCount := cycleCount, endpoints := some newEndpoints,
        dispatched := dispatched, refreshAttempted := true, caught := false }
    | none =>
      { extraDelay := extraDelay, cycleCount := cycleCount, endpoints := s.endpoints,
        dispatched := dispatched, refreshAttempted := true, caught := false }
  else
    { extraDelay := extraDelay, cycleCount := cycleCount, endpoints := s.endpoints,
      dispatched := dispatched, refreshAttempted := false, caught := false }

/-- The test `endpoints && Object.keys(endpoints).length > 0`. -/
def hasEndpoints (endpoints : Option EndpointSet) : Bool :=
  match endpoints with
  | some es => decide (es.length > 0)
  | none => false

/-- The `try` block of `runReportCycle` with its `catch` clause. -/
def cycleBody (s : SchedulerState) (env : CycleEnv) : CycleBody :=
  match s.endpoints with
  | some es =>
    if hasEndpoints (some es) then
      match goatReportLoop env es with
      | .ok needs => refreshStep s env (extraDelayOf needs) true
      | .error _ =>
        { extraDelay := 0, cycleCount := s.cycleCount, endpoints := s.endpoints,
          dispatched := true, refreshAttempted := false, caught := true }
    else refreshStep s env 0 false
  | none => refreshStep s env 0 false

/-- What one call of `runReportCycle` does. -/
structure CycleResult where
  /-- The shared variables and the file after the cycle. -/
  state : SchedulerState
  body : CycleBody
  /-- The argument of the call `saveTimestamp(nextTargetTime)`. -/
  saved : Int
  /-- The delay given to `setTimeout` for the next cycle. -/
  delay : Int
  deriving DecidableEq, Repr

/-- The function `runReportCycle`. -/
def runReportCycle (s : SchedulerState) (env : CycleEnv) : CycleResult :=
  let body := cycleBody s env
  let nextTargetTime := s.nextTargetTime + (60000 + body.extraDelay)
  let file := saveTimestamp s.file env.writeOk nextTargetTime
  let delay := max 0 (nextTargetTime - env.now)
  { state := { endpoints := body.endpoints, cycleCount := body.cycleCount,
               nextTargetTime := nextTargetTime, file := file },
    body := body, saved := nextTargetTime, delay := delay }

/-- The state after the cycles a process runs one after the other, each rescheduled
by the one before it. -/
def runCycles (s : SchedulerState) : List CycleEnv → SchedulerState
  | [] => s
  | env :: envs => runCycles (runReportCycle s env).state envs

/-- The successive values of `nextTargetTime`: the one the first cycle starts from,
then the one each cycle leaves. -/
def targetTimes (s : SchedulerState) : List CycleEnv → List Int
  | [] => [s.nextTargetTime]
  | env :: envs => s.nextTargetTime :: targetTimes (runReportCycle s env).state envs

/-- Whether each of the cycles a process runs attempts a refresh, in order. -/
def refreshTrace (s : SchedulerState) : List CycleEnv → List Bool
  | [] => []
  | env :: envs =>
    (runReportCycle s env).body.refreshAttempted :: refreshTrace (runReportCycle s env).state envs

/-- The cycles whose `try` block reaches the increment of `cycleCount`: those that
skip the dispatch and those whose `goatReportLoop` returns. -/
def dispatchReturns (s : SchedulerState) (env : CycleEnv) : Bool :=
  !hasEndpoints s.endpoints || env.dispatchError.isNone

/-- The set D as the specification describes it: the deviations of the successful
exchanges (status 200, parsable body) whose response carries the deviation field. -/
def specDeviationSet (exchanges : List HttpReport) : List Int :=
  exchanges.filterMap (fun ev =>
    match ev with
    | .response statusCode (.value _ (some d)) => if statusCode = 200 then some d else none
    | _ => none)

/-- The deviations `goatReportLoop` keeps, read off the exchanges: one for every
successful exchange, and 0 for a response without the deviation field. -/
def keptDeviations (exchanges : List HttpReport) : List Int :=
  exchanges.filterMap (fun ev =>
    match ev with
    | .response statusCode (.value _ msDeviation) =>
      if statusCode = 200 then some (msDeviation.getD 0) else none
    | _ => none)

/-! ## Decimal digits and `parseInt` -/

theorem digit_range (c : Char) (h : isRadixDigit 10 c = true) : 48 ≤ c.toNat ∧ c.toNat ≤ 57 := by
  unfold isRadixDigit digitValue at h
  by_cases h1 : 48 ≤ c.toNat ∧ c.toNat ≤ 57
  · exact h1
  · simp only [h1, if_false] at h
    split_ifs at h <;> simp at h

theorem digitValue_digitChar (k : Nat) (hk : k < 10) :
    digitValue (Nat.digitChar k) = some k ∧ isRadixDigit 10 (Nat.digitChar k) = true := by
  interval_cases k <;> decide

theorem digitChar_ne_zero (k : Nat) (hk : k < 10) (h0 : 0 < k) : Nat.digitChar k ≠ '0' := by
  interval_cases k <;> decide

theorem digitsValue_append (radix : Nat) (ds : List Char) (c : Char) :
    digitsValue radix (ds ++ [c]) = digitsValue radix ds * radix + (digitValue c).getD 0 := by
  simp [digitsValue, List.foldl_append]

theorem toDigitsCore_spec (fuel : Nat) : ∀ (n : Nat) (acc : List Char), n < fuel →
    ∃ ds : List Char, Nat.toDigitsCore 10 fuel n acc = ds ++ acc ∧
      (∀ c ∈ ds, isRadixDigit 10 c = true) ∧ digitsValue 10 ds = n ∧
      (∃ c rest, ds = c :: rest ∧ (0 < n → c ≠ '0')) := by
  induction fuel with
  | zero => intro n acc h; omega
  | succ fuel ih =>
    intro n acc h
    have hmod : n % 10 < 10 := Nat.mod_lt _ (by decide)
    obtain ⟨hv, hd⟩ := digitValue_digitChar (n % 10) hmod
    by_cases hq : n / 10 = 0
    · refine ⟨[Nat.digitChar (n % 10)], ?_, ?_, ?_, ?_⟩
      · simp [Nat.toDigitsCore, hq]
      · intro c hc
        simp only [List.mem_singleton] at hc
        rw [hc]; exact hd
      · simp [digitsValue, hv]; omega
      · refine ⟨_, [], rfl, fun h0 => digitChar_ne_zero _ hmod (by omega)⟩
    · have hlt : n / 10 < fuel := by omega
      obtain ⟨ds, hds, hall, hval, c, rest, hcr, hc0⟩ := ih (n / 10) (Nat.digitChar (n % 10) :: acc) hlt
      refine ⟨ds ++ [Nat.digitChar (n % 10)], ?_, ?_, ?_, ?_⟩
      · simp [Nat.toDigitsCore, hq, hds]
      · intro x hx
        rcases List.mem_append.mp hx with hx | hx
        · exact hall x hx
        · simp only [List.mem_singleton] at hx
          rw [hx]; exact hd
      · rw [digitsValue_append, hval, hv]; simp; omega
      · exact ⟨c, rest ++ [Nat.digitChar (n % 10)], by simp [hcr], fun _ => hc0 (by omega)⟩

theorem toDigits_spec (n : Nat) :
    (∀ c ∈ Nat.toDigits 10 n, isRadixDigit 10 c = true) ∧ digitsValue 10 (Nat.toDigits 10 n) = n ∧
      (∃ c rest, Nat.toDigits 10 n = c :: rest ∧ (0 < n → c ≠ '0')) := by
  obtain ⟨ds, hds, hall, hval, hhead⟩ := toDigitsCore_spec (n + 1) n [] (Nat.lt_succ_self n)
  have : Nat.toDigits 10 n = ds := by simp [Nat.toDigits, hds]
  rw [this]
  exact ⟨hall, hval, hhead⟩

theorem digit_not_space (c : Char) (h : isRadixDigit 10 c = true) : isStrWhiteSpace c = false := by
  have hr := digit_range c h
  simp only [isStrWhiteSpace, Bool.or_eq_false_iff, decide_eq_false_iff_not, Bool.and_eq_false_iff]
  omega

theorem takeWhile_digits (ds g : List Char) (hds : ∀ c ∈ ds, isRadixDigit 10 c = true)
    (hg : ∀ c rest, g = c :: rest → isRadixDigit 10 c = false) :
    (ds ++ g).takeWhile (isRadixDigit 10) = ds := by
  induction ds with
  | nil =>
    cases g with
    | nil => rfl
    | cons c rest => simp [List.takeWhile, hg c rest rfl]
  | cons d ds ih =>
    have hd : isRadixDigit 10 d = true := hds d (List.mem_cons_self _ _)
    rw [List.cons_append, List.takeWhile_cons, hd, if_pos rfl,
      ih (fun c hc => hds c (List.mem_cons_of_mem _ hc))]

theorem excessBits_of_lt (fuel n : Nat) (h : n < 2 ^ 53) : excessBits fuel n = 0 := by
  cases fuel with
  | zero => rfl
  | succ f => simp only [excessBits, h, if_true]

theorem roundToDouble_of_lt (n : Nat) (h : n < 2 ^ 53) : roundToDouble n = n := by
  simp only [roundToDouble, h, if_true]

theorem isFiniteDouble_of_lt (n : Nat) (h : n < 2 ^ 53) : isFiniteDouble n = true := by
  simp [isFiniteDouble, excessBits_of_lt n n h]

theorem numberOfNat_of_lt (n : Nat) (h : n < 2 ^ 53) : numberOfNat false n = .num n := by
  simp [numberOfNat, roundToDouble_of_lt n h, isFiniteDouble_of_lt n h]

theorem parseIntChars_digits (c : Char) (rest g : List Char)
    (hds : ∀ x ∈ c :: rest, isRadixDigit 10 x = true) (hc0 : c ≠ '0')
    (hg : ∀ x tl, g = x :: tl → isRadixDigit 10 x = false) :
    parseIntChars ((c :: rest) ++ g) = numberOfNat false (digitsValue 10 (c :: rest)) := by
  have hc : isRadixDigit 10 c = true := hds c (List.mem_cons_self _ _)
  have hr := digit_range c hc
  have hsp := digit_not_space c hc
  have hminus : c ≠ '-' := by rintro rfl; revert hr; decide
  have hplus : c ≠ '+' := by rintro rfl; revert hr; decide
  have htrim : ((c :: rest) ++ g).dropWhile isStrWhiteSpace = c :: (rest ++ g) := by
    simp [List.dropWhile, hsp]
  unfold parseIntChars
  simp only [htrim]
  have hsigned : (match c :: (rest ++ g) with
      | '-' :: r => (true, r)
      | '+' :: r => (false, r)
      | _ => (false, c :: (rest ++ g))) = (false, c :: (rest ++ g)) := by
    split
    · rename_i h; simp only [List.cons.injEq] at h; exact absurd h.1 hminus
    · rename_i h; simp only [List.cons.injEq] at h; exact absurd h.1 hplus
    · rfl
  rw [hsigned]
  have hbased : (match c :: (rest ++ g) with
      | '0' :: 'x' :: r => ((16 : Nat), r)
      | '0' :: 'X' :: r => (16, r)
      | _ => (10, c :: (rest ++ g))) = (10, c :: (rest ++ g)) := by
    split
    · rename_i h; simp only [List.cons.injEq] at h; exact absurd h.1 hc0
    · rename_i h; simp only [List.cons.injEq] at h; exact absurd h.1 hc0
    · rfl
  simp only [hbased]
  have htake : (c :: (rest ++ g)).takeWhile (isRadixDigit 10) = c :: rest := by
    have := takeWhile_digits (c :: rest) g hds hg
    simpa using this
  rw [htake]
  simp

theorem numberToString_of_lt (m : Nat) (h : m < 2 ^ 53) :
    numberToString (m : Int) = String.mk (Nat.toDigits 10 m) := by
  have hlen : (Nat.toDigits 10 m).length ≤ 21 :=
    Nat.toDigitsCore_length 10 (by decide) (m + 1) m 21
      (lt_of_lt_of_le h (by norm_num)) (by decide)
  have hneg : ¬ ((m : Int) < 0) := by omega
  simp only [numberToString, hneg, if_false, Int.natAbs_ofNat, roundToDouble_of_lt m h,
    isFiniteDouble_of_lt m h, h, if_true, hlen, List.nil_append]

theorem parseInt_numberToString_append (T : Int) (hT : 0 < T) (hsafe : T < 2 ^ 53)
    (g : List Char) (hg : ∀ x tl, g = x :: tl → isRadixDigit 10 x = false) :
    parseInt (String.mk ((numberToString T).data ++ g)) = .num T := by
  obtain ⟨m, rfl⟩ := Int.eq_ofNat_of_zero_le (le_of_lt hT)
  have hm : 0 < m := by exact_mod_cast hT
  have hm53 : m < 2 ^ 53 := by exact_mod_cast hsafe
  obtain ⟨hall, hval, c, rest, hcr, hc0⟩ := toDigits_spec m
  rw [numberToString_of_lt m hm53]
  simp only [parseInt]
  rw [hcr] at hall hval ⊢
  rw [parseIntChars_digits c rest g hall (hc0 hm) hg, hval, numberOfNat_of_lt m hm53]

/-! ## The deviation heuristic -/

theorem mathAbs_num_gt (d k : Int) : ((JsValue.num d).mathAbs.gt k = true) ↔ k < |d| := by
  simp [JsValue.mathAbs, JsValue.gt, JsValue.toNumber]

theorem mathAbs_num_lt (d k : Int) : ((JsValue.num d).mathAbs.lt k = true) ↔ |d| < k := by
  simp [JsValue.mathAbs, JsValue.lt, JsValue.toNumber]

theorem needsExtraDelay_of_valid (results : List ReportOutcome) (D : List Int)
    (hD : validDeviations results = D.map JsValue.num) :
    needsExtraDelay results = true ↔
      D ≠ [] ∧ (∀ d ∈ D, 1000 < |d|) ∧ (∃ d ∈ D, |d| < 2000) := by
  unfold needsExtraDelay
  simp only [hD, List.length_map, Bool.and_eq_true, decide_eq_true_eq, List.all_eq_true,
    List.any_eq_true, List.mem_map, forall_exists_index, and_imp, forall_apply_eq_imp_iff₂,
    exists_exists_and_eq_and, mathAbs_num_gt, mathAbs_num_lt, gt_iff_lt, List.length_pos, and_assoc]

theorem validDeviations_successes (D : List Int) :
    validDeviations (successes D) = D.map JsValue.num := by
  induction D with
  | nil => rfl
  | cons d ds ih =>
    have h : validDeviations (successes (d :: ds)) = .num d :: validDeviations (successes ds) := rfl
    rw [h, ih]; rfl

theorem extraDelayOf_eq_thousand (b : Bool) : extraDelayOf b = 1000 ↔ b = true := by
  cases b <;> simp [extraDelayOf]

theorem extraDelayOf_eq_zero (b : Bool) : extraDelayOf b = 0 ↔ b = false := by
  cases b <;> simp [extraDelayOf]

/-- C1: with D the deviations of the outcomes that pass the filter of
`goatReportLoop`, `needsExtraDelay` is true, and `extraDelay` is 1000, exactly when D
is not empty, every value of D has absolute value above 1000 and some value of D has
absolute value below 2000; otherwise, and when D is empty, `extraDelay` is 0.  The
five lists of the specification give 1000, 1000, 0, 0 and 0. -/
theorem deviation_heuristic (results : List ReportOutcome) (D : List Int)
    (hD : validDeviations results = D.map JsValue.num) :
    (needsExtraDelay results = true ↔
      D ≠ [] ∧ (∀ d ∈ D, 1000 < |d|) ∧ (∃ d ∈ D, |d| < 2000)) ∧
    (extraDelayOf (needsExtraDelay results) = 1000 ↔
      D ≠ [] ∧ (∀ d ∈ D, 1000 < |d|) ∧ (∃ d ∈ D, |d| < 2000)) ∧
    (extraDelayOf (needsExtraDelay results) = 0 ↔
      ¬ (D ≠ [] ∧ (∀ d ∈ D, 1000 < |d|) ∧ (∃ d ∈ D, |d| < 2000))) ∧
    (D = [] → extraDelayOf (needsExtraDelay results) = 0) ∧
    validDeviations (successes D) = D.map JsValue.num ∧
    extraDelayOf (needsExtraDelay (successes [1500, 1800])) = 1000 ∧
    extraDelayOf (needsExtraDelay (successes [1500, 2500])) = 1000 ∧
    extraDelayOf (needsExtraDelay (successes [3000, 4000])) = 0 ∧
    extraDelayOf (needsExtraDelay (successes [])) = 0 ∧
    extraDelayOf (needsExtraDelay (successes [500, 1800])) = 0 := by
  have key := needsExtraDelay_of_valid results D hD
  refine ⟨key, ?_, ?_, ?_, ?_, by decide, by decide, by decide, by decide, by decide⟩
  · rw [extraDelayOf_eq_thousand]; exact key
  · rw [extraDelayOf_eq_zero, ← key]; simp
  · intro hnil
    rw [extraDelayOf_eq_zero, ← Bool.not_eq_true, key]
    exact fun h => h.1 hnil
  · exact validDeviations_successes D

/-- The heuristic on outcomes of which two pass the filter, a failed one between
them: D is `[1500, 1800]` and the extra delay is 1000. -/
theorem deviation_heuristic_witness :
    validDeviations [⟨true, .num 1500⟩, ⟨false, .null⟩, ⟨true, .num 1800⟩] =
        [1500, 1800].map JsValue.num ∧
      extraDelayOf (needsExtraDelay [⟨true, .num 1500⟩, ⟨false, .null⟩, ⟨true, .num 1800⟩]) = 1000 :=
  ⟨by decide,
    (deviation_heuristic [⟨true, .num 1500⟩, ⟨false, .null⟩, ⟨true, .num 1800⟩] [1500, 1800]
      (by decide)).2.1.mpr (by decide)⟩

/-! ## The report cycle -/

theorem refreshStep_extraDelay (s : SchedulerState) (env : CycleEnv) (x : Int) (d : Bool) :
    (refreshStep s env x d).extraDelay = x := by
  simp only [refreshStep]
  split_ifs
  · split <;> rfl
  · rfl

theorem refreshStep_cycleCount (s : SchedulerState) (env : CycleEnv) (x : Int) (d : Bool) :
    (refreshStep s env x d).cycleCount = s.cycleCount + 1 := by
  simp only [refreshStep]
  split_ifs
  · split <;> rfl
  · rfl

theorem refreshStep_refreshAttempted (s : SchedulerState) (env : CycleEnv) (x : Int) (d : Bool) :
    (refreshStep s env x d).refreshAttempted = decide ((s.cycleCount + 1) % 10 = 0) := by
  simp only [refreshStep]
  split_ifs with h
  · split <;> simp [h]
  · simp [h]

theorem refreshStep_endpoints (s : SchedulerState) (env : CycleEnv) (x : Int) (d : Bool) :
    (refreshStep s env x d).endpoints =
      if (s.cycleCount + 1) % 10 = 0 then
        (match fetchEndpoints env.refresh with
          | some es => some es
          | none => s.endpoints)
      else s.endpoints := by
  simp only [refreshStep]
  split_ifs with h
  · split <;> simp_all
  · rfl

theorem hasEndpoints_some (es : EndpointSet) : hasEndpoints (some es) = true ↔ es ≠ [] := by
  simp [hasEndpoints, List.length_pos]

theorem cycleBody_of_returns (s : SchedulerState) (env : CycleEnv)
    (h : dispatchReturns s env = true) :
    ∃ x d, cycleBody s env = refreshStep s env x d := by
  unfold cycleBody
  cases hs : s.endpoints with
  | none => exact ⟨_, _, rfl⟩
  | some es =>
    simp only
    split_ifs with hes
    · have hnone : env.dispatchError = none := by
        simp [dispatchReturns, hs, hes] at h
        exact h
      simp only [goatReportLoop, hnone]
      exact ⟨_, _, rfl⟩
    · exact ⟨_, _, rfl⟩

theorem cycleBody_of_throws (s : SchedulerState) (env : CycleEnv)
    (h : dispatchReturns s env = false) :
    cycleBody s env =
      { extraDelay := 0, cycleCount := s.cycleCount, endpoints := s.endpoints,
        dispatched := true, refreshAttempted := false, caught := true } := by
  unfold cycleBody
  simp only [dispatchReturns, Bool.or_eq_false_iff, Bool.not_eq_false'] at h
  obtain ⟨h1, h2⟩ := h
  cases hs : s.endpoints with
  | none => simp [hs, hasEndpoints] at h1
  | some es =>
    rw [hs] at h1
    simp only [h1, if_true]
    cases he : env.dispatchError with
    | none => simp [he] at h2
    | some err => simp [goatReportLoop, he]

theorem cycleBody_extraDelay (s : SchedulerState) (env : CycleEnv) :
    (cycleBody s env).extraDelay = 1000 ↔
      ∃ es, s.endpoints = some es ∧ es ≠ [] ∧ goatReportLoop env es = .ok true := by
  unfold cycleBody
  cases hs : s.endpoints with
  | none => simp [refreshStep_extraDelay]
  | some es =>
    simp only [Option.some.injEq, exists_eq_left']
    by_cases hes : hasEndpoints (some es) = true
    · have hne := (hasEndpoints_some es).mp hes
      simp only [hes, if_true]
      cases hg : goatReportLoop env es with
      | error e => simp
      | ok b =>
        simp only [refreshStep_extraDelay, extraDelayOf_eq_thousand]
        cases b <;> simp [hne]
    · have hnil : es = [] := by
        by_contra hne
        exact hes ((hasEndpoints_some es).mpr hne)
      simp only [if_neg hes, refreshStep_extraDelay]
      simp [hnil]

theorem cycleBody_extraDelay_cases (s : SchedulerState) (env : CycleEnv) :
    (cycleBody s env).extraDelay = 0 ∨ (cycleBody s env).extraDelay = 1000 := by
  cases h : dispatchReturns s env with
  | false => rw [cycleBody_of_throws s env h]; exact Or.inl rfl
  | true =>
    unfold cycleBody
    cases hs : s.endpoints with
    | none => simp [refreshStep_extraDelay]
    | some es =>
      simp only
      split_ifs
      · cases hg : goatReportLoop env es with
        | error e => exact Or.inl rfl
        | ok b => cases b <;> simp [refreshStep_extraDelay, extraDelayOf]
      · simp [refreshStep_extraDelay]

theorem cycleBody_dispatched (s : SchedulerState) (env : CycleEnv) :
    (cycleBody s env).dispatched = hasEndpoints s.endpoints := by
  cases h : dispatchReturns s env with
  | false =>
    rw [cycleBody_of_throws s env h]
    simp only [dispatchReturns, Bool.or_eq_false_iff, Bool.not_eq_false'] at h
    exact h.1.symm
  | true =>
    unfold cycleBody
    cases hs : s.endpoints with
    | none => simp only [refreshStep]; split_ifs <;> [split; skip] <;> rfl
    | some es =>
      simp only
      split_ifs with hes
      · cases hg : goatReportLoop env es with
        | error e => exact hes.symm
        | ok b => simp only [refreshStep]; split_ifs <;> [split; skip] <;> exact hes.symm
      · have hf : hasEndpoints (some es) = false := by simpa using hes
        simp only [refreshStep]; split_ifs <;> [split; skip] <;> exact hf.symm

theorem runReportCycle_lt (s : SchedulerState) (env : CycleEnv) :
    s.nextTargetTime < (runReportCycle s env).state.nextTargetTime := by
  have h := cycleBody_extraDelay_cases s env
  simp only [runReportCycle]
  omega

theorem targetTimes_ge (envs : List CycleEnv) : ∀ (s : SchedulerState),
    ∀ t ∈ targetTimes s envs, s.nextTargetTime ≤ t := by
  induction envs with
  | nil => intro s t ht; simp [targetTimes] at ht; omega
  | cons env envs ih =>
    intro s t ht
    simp only [targetTimes, List.mem_cons] at ht
    rcases ht with rfl | ht
    · exact le_refl _
    · exact le_trans (le_of_lt (runReportCycle_lt s env)) (ih _ t ht)

theorem targetTimes_sorted (envs : List CycleEnv) : ∀ (s : SchedulerState),
    (targetTimes s envs).Sorted (· < ·) := by
  induction envs with
  | nil => intro s; simp [targetTimes]
  | cons env envs ih =>
    intro s
    simp only [targetTimes, List.sorted_cons]
    exact ⟨fun t ht => lt_of_lt_of_le (runReportCycle_lt s env) (targetTimes_ge envs _ t ht), ih _⟩

/-- C2: whatever the endpoint set (empty and missing included), the outcomes of the
dispatch, the clock and whether `goatReportLoop` throws, a cycle leaves
`nextTargetTime` at its former value plus 60000 plus `extraDelay`, where `extraDelay`
is 0 or 1000, and is 1000 exactly when `goatReportLoop` ran and returned
`needsExtraDelay` (it does not run when the set is empty or missing); that value is
the one handed to `saveTimestamp`, which writes it to the file; the next cycle is
scheduled; and the successive values of `nextTargetTime` increase strictly. -/
theorem cycle_advances_target (s : SchedulerState) (env : CycleEnv) :
    (runReportCycle s env).state.nextTargetTime =
        s.nextTargetTime + 60000 + (runReportCycle s env).body.extraDelay ∧
      ((runReportCycle s env).body.extraDelay = 0 ∨
        (runReportCycle s env).body.extraDelay = 1000) ∧
      ((runReportCycle s env).body.extraDelay = 1000 ↔
        ∃ es, s.endpoints = some es ∧ es ≠ [] ∧ goatReportLoop env es = .ok true) ∧
      (runReportCycle s env).body.dispatched = hasEndpoints s.endpoints ∧
      (runReportCycle s env).saved = (runReportCycle s env).state.nextTargetTime ∧
      (runReportCycle s env).state.file =
        (if env.writeOk = true then
          some (numberToString (runReportCycle s env).state.nextTargetTime)
        else s.file) ∧
      (∀ now, (runReportCycle s { env with now := now }).state = (runReportCycle s env).state) ∧
      (runReportCycle s env).delay =
        max 0 ((runReportCycle s env).state.nextTargetTime - env.now) ∧
      s.nextTargetTime < (runReportCycle s env).state.nextTargetTime ∧
      (∀ envs : List CycleEnv, (targetTimes s envs).Sorted (· < ·)) := by
  refine ⟨?_, cycleBody_extraDelay_cases s env, cycleBody_extraDelay s env,
    cycleBody_dispatched s env, rfl, ?_, ?_, rfl,
    runReportCycle_lt s env, fun envs => targetTimes_sorted envs s⟩
  · simp only [runReportCycle]; omega
  · simp only [runReportCycle, saveTimestamp]
  · intro now; rfl

/-! ## Startup -/

theorem main_eq_some (env : StartupEnv) (st : Startup) (s0 : SchedulerState)
    (h : main env = some (st, s0)) :
    validateHex env.goatId = true ∧ validateHex env.goatKey = true ∧
      (∃ es, fetchEndpoints env.initialFetch = some es ∧ s0.endpoints = some es) ∧
      startup (loadTimestamp env.file) env.now env.random env.nowAfterSleep = some st ∧
      s0.cycleCount = 0 ∧ s0.nextTargetTime = st.nextTargetTime ∧ s0.file = env.file := by
  unfold main at h
  split_ifs at h with h1 h2
  cases hf : fetchEndpoints env.initialFetch with
  | none => simp [hf] at h
  | some es =>
    cases hs : startup (loadTimestamp env.file) env.now env.random env.nowAfterSleep with
    | none => simp [hf, hs] at h
    | some st2 =>
      simp only [hf, hs, Option.some.injEq, Prod.mk.injEq] at h
      obtain ⟨hst, hs0⟩ := h
      subst hs0
      subst hst
      simp only [Bool.not_eq_true', Bool.not_eq_false] at h1 h2
      exact ⟨h1, h2, ⟨es, rfl, rfl⟩, rfl, rfl, rfl, rfl⟩

theorem main_of_startup (env : StartupEnv) (es : EndpointSet) (st : Startup)
    (h1 : validateHex env.goatId = true) (h2 : validateHex env.goatKey = true)
    (hf : fetchEndpoints env.initialFetch = some es)
    (hs : startup (loadTimestamp env.file) env.now env.random env.nowAfterSleep = some st) :
    main env = some (st, { endpoints := some es, cycleCount := 0,
                           nextTargetTime := st.nextTargetTime, file := env.file }) := by
  simp [main, h1, h2, hf, hs]

theorem toISOStringThrows_num (T : Int) :
    toISOStringThrows (.num T) = decide (|T| > 8640000000000000) := rfl

theorem startup_resuming (T now : Int) (random : UnitDouble) (nowAfterSleep : Int) (hT : 0 < T)
    (hmax : T ≤ 8640000000000000) (h : T - now ≥ 1000) :
    startup (.num T) now random nowAfterSleep =
      some { branch := .resuming, sleepMs := T - now, randomDraws := 0, nextTargetTime := T } := by
  have h0 : (JsValue.num T).truthy = true := by
    simp [JsValue.truthy]; omega
  have h1 : T > now := by omega
  have h2 : ¬ (|T| > 8640000000000000) := by
    rw [abs_of_pos hT]; omega
  simp [startup, toISOStringThrows_num, h0, h1, h2, h]

theorem startup_throws (T now : Int) (random : UnitDouble) (nowAfterSleep : Int)
    (h : |T| > 8640000000000000) : startup (.num T) now random nowAfterSleep = none := by
  have h0 : (JsValue.num T).truthy = true := by
    have : T ≠ 0 := by
      rintro rfl
      simp at h
    simp [JsValue.truthy, this]
  simp [startup, toISOStringThrows_num, h0, h]

theorem startup_fresh (saved : JsValue) (now : Int) (random : UnitDouble) (nowAfterSleep : Int)
    (hsaved : saved = .null ∨ saved = .nan ∨
      ∃ T, saved = .num T ∧ |T| ≤ 8640000000000000 ∧
        (T ≤ now ∨ (0 < T - now ∧ T - now < 1000))) :
    ∃ st, startup saved now random nowAfterSleep = some st ∧
      st.branch ≠ .resuming ∧ st.sleepMs = initialSleep random ∧ st.randomDraws = 1 ∧
      st.nextTargetTime = nowAfterSleep + 60000 := by
  rcases hsaved with rfl | rfl | ⟨T, rfl, hmax, hT⟩
  · exact ⟨_, rfl, by simp, rfl, rfl, rfl⟩
  · exact ⟨_, rfl, by simp, rfl, rfl, rfl⟩
  · have h2 : ¬ (|T| > 8640000000000000) := by omega
    unfold startup
    simp only [toISOStringThrows_num, h2, decide_False, Bool.and_false, Bool.false_eq_true,
      if_false]
    split_ifs with h1 h3
    · exfalso
      simp only [Bool.and_eq_true, decide_eq_true_eq] at h1
      omega
    · exact ⟨_, rfl, by simp, rfl, rfl, rfl⟩
    · exact ⟨_, rfl, by simp, rfl, rfl, rfl⟩

theorem excessBits_le (fuel : Nat) : ∀ (k n : Nat), n < 2 ^ (53 + k) → excessBits fuel n ≤ k := by
  induction fuel with
  | zero => intro k n _; simp [excessBits]
  | succ f ih =>
    intro k n h
    by_cases hn : n < 2 ^ 53
    · rw [excessBits_of_lt _ n hn]; omega
    · cases k with
      | zero => exact absurd h hn
      | succ k =>
        have hhalf : n / 2 < 2 ^ (53 + k) := by
          rw [Nat.div_lt_iff_lt_mul (by decide)]
          calc n < 2 ^ (53 + (k + 1)) := h
            _ = 2 ^ (53 + k) * 2 := by rw [← Nat.add_assoc, Nat.pow_succ]
        simp only [excessBits, hn, if_false]
        exact Nat.succ_le_succ (ih k (n / 2) hhalf)

theorem excessBits_pos (n : Nat) (hn : ¬ n < 2 ^ 53) : 1 ≤ excessBits n n := by
  cases n with
  | zero => exact absurd (by decide) hn
  | succ m => simp only [excessBits, hn, if_false]; omega

theorem roundToDouble_le (n : Nat) (h : n < 2 ^ 69) : roundToDouble n ≤ n + 2 ^ 15 := by
  by_cases hn : n < 2 ^ 53
  · rw [roundToDouble_of_lt n hn]; omega
  · have hs1 : 1 ≤ excessBits n n := excessBits_pos n hn
    have hs2 : excessBits n n ≤ 16 := excessBits_le n 16 n (by simpa using h)
    have hpow : 2 ^ excessBits n n = 2 * 2 ^ (excessBits n n - 1) := by
      obtain ⟨t, ht⟩ : ∃ t, excessBits n n = t + 1 := ⟨excessBits n n - 1, by omega⟩
      rw [ht, Nat.add_sub_cancel, Nat.pow_succ, Nat.mul_comm]
    have hhalf : 2 ^ (excessBits n n - 1) ≤ 2 ^ 15 :=
      Nat.pow_le_pow_right (by decide) (by omega)
    have hdm := Nat.div_add_mod n (2 ^ excessBits n n)
    have hmul : (n / 2 ^ excessBits n n + 1) * 2 ^ excessBits n n =
        2 ^ excessBits n n * (n / 2 ^ excessBits n n) + 2 ^ excessBits n n := by ring
    have hmul2 : n / 2 ^ excessBits n n * 2 ^ excessBits n n =
        2 ^ excessBits n n * (n / 2 ^ excessBits n n) := Nat.mul_comm _ _
    simp only [roundToDouble, hn, if_false]
    split_ifs with hr
    · rw [hmul]
      rcases hr with hr | ⟨hr, _⟩ <;> omega
    · rw [hmul2]; omega

theorem initialSleep_bounds (random : UnitDouble) (h : random.valid) :
    10000 ≤ initialSleep random ∧ initialSleep random ≤ 70000 := by
  obtain ⟨hm, hme, _⟩ := h
  have h69 : random.mantissa * 60001 < 2 ^ 69 := by
    have : random.mantissa * 60001 < 2 ^ 53 * 60001 := Nat.mul_lt_mul_of_pos_right hm (by decide)
    exact lt_trans this (by norm_num)
  have hround := roundToDouble_le _ h69
  have hlt : roundToDouble (random.mantissa * 60001) < 60001 * 2 ^ random.exponent := by
    have h1 : (random.mantissa + 1) * 60001 ≤ 2 ^ random.exponent * 60001 :=
      Nat.mul_le_mul_right _ hme
    have h2 : (2 : Nat) ^ 15 < 60001 := by norm_num
    calc roundToDouble (random.mantissa * 60001) ≤ random.mantissa * 60001 + 2 ^ 15 := hround
      _ < (random.mantissa + 1) * 60001 := by rw [Nat.add_mul]; omega
      _ ≤ 2 ^ random.exponent * 60001 := h1
      _ = 60001 * 2 ^ random.exponent := Nat.mul_comm _ _
  have hdiv : roundToDouble (random.mantissa * 60001) / 2 ^ random.exponent < 60001 :=
    (Nat.div_lt_iff_lt_mul (Nat.pos_pow_of_pos _ (by decide))).mpr hlt
  unfold initialSleep
  generalize roundToDouble (random.mantissa * 60001) / 2 ^ random.exponent = q at hdiv
  omega

theorem startup_resumes_in_range (env : StartupEnv) (T : Int) (st : Startup)
    (s0 : SchedulerState) (hmain : main env = some (st, s0))
    (hload : loadTimestamp env.file = .num T) (hT : 0 < T) (hmax : T ≤ 8640000000000000)
    (h : T - env.now ≥ 1000) :
    st.branch = .resuming ∧ st.nextTargetTime = T ∧ st.sleepMs = T - env.now ∧
      (T - env.now ≤ 2147483647 → setTimeoutDelay st.sleepMs = T - env.now) ∧
      st.randomDraws = 0 ∧ s0.nextTargetTime = T ∧
      (∀ (random : UnitDouble) (nowAfterSleep : Int),
        main { env with random := random, nowAfterSleep := nowAfterSleep } = some (st, s0)) ∧
      (∀ cenv : CycleEnv,
        (runReportCycle s0 cenv).saved = T + 60000 + (runReportCycle s0 cenv).body.extraDelay ∧
        ((runReportCycle s0 cenv).body.extraDelay = 0 ∨
          (runReportCycle s0 cenv).body.extraDelay = 1000)) := by
  obtain ⟨h1, h2, ⟨es, hes, hs0e⟩, hst, hcc, hnt, hfile⟩ := main_eq_some env st s0 hmain
  rw [hload, startup_resuming T env.now env.random env.nowAfterSleep hT hmax h] at hst
  simp only [Option.some.injEq] at hst
  have hs0 : s0.nextTargetTime = T := by rw [hnt, ← hst]
  refine ⟨by rw [← hst], by rw [← hst], by rw [← hst], ?_, by rw [← hst], hs0, ?_, ?_⟩
  · intro hle
    rw [← hst]
    simp only [setTimeoutDelay]
    rw [if_neg (by omega)]
  · intro random nowAfterSleep
    rw [← hmain]
    simp only [main, hload, startup_resuming T env.now _ _ hT hmax h]
  · intro cenv
    refine ⟨?_, cycleBody_extraDelay_cases s0 cenv⟩
    simp only [runReportCycle, hs0]; omega

theorem fresh_start_in_range (env : StartupEnv) (st : Startup) (s0 : SchedulerState)
    (hmain : main env = some (st, s0)) (hr : env.random.valid)
    (hload : loadTimestamp env.file = .null ∨ loadTimestamp env.file = .nan ∨
      ∃ T, loadTimestamp env.file = .num T ∧ |T| ≤ 8640000000000000 ∧
        (T ≤ env.now ∨ (0 < T - env.now ∧ T - env.now < 1000))) :
    st.branch ≠ .resuming ∧ st.randomDraws = 1 ∧
      st.sleepMs = initialSleep env.random ∧
      10000 ≤ st.sleepMs ∧ st.sleepMs ≤ 70000 ∧
      st.nextTargetTime = env.nowAfterSleep + 60000 ∧
      s0.nextTargetTime = env.nowAfterSleep + 60000 ∧
      (∃ r : UnitDouble, r.valid ∧ initialSleep r = 10000) ∧
      (∃ r : UnitDouble, r.valid ∧ initialSleep r = 70000) := by
  obtain ⟨_, _, _, hst, _, hnt, _⟩ := main_eq_some env st s0 hmain
  obtain ⟨st2, hst2, hb, hs, hd, hn⟩ :=
    startup_fresh _ env.now env.random env.nowAfterSleep hload
  rw [hst, Option.some.injEq] at hst2
  subst hst2
  obtain ⟨hlo, hhi⟩ := initialSleep_bounds env.random hr
  exact ⟨hb, hd, hs, by rw [hs]; exact hlo, by rw [hs]; exact hhi, hn, by rw [hnt, hn],
    ⟨⟨0, 0⟩, by decide, by decide⟩, ⟨⟨2 ^ 53 - 1, 53⟩, by decide, by decide⟩⟩

/-- C3: the startup does not resume at every saved target that is at least one
second ahead.  With `8640000000000001` in the timestamp file the log of the loaded
target throws (`new Date(savedNextTime).toISOString()` on a time a `Date` cannot
hold) and the process exits with status 1; with a target `2 ^ 31` ms ahead the
resuming arm hands `setTimeout` a delay it does not keep: the timer waits 1 ms.
A target in the range of a `Date` and of a timer is resumed at. -/
theorem resume_fails_beyond_date_and_timer_range :
    (loadTimestamp (some "8640000000000001") = .num 8640000000000001 ∧
      (8640000000000001 : Int) - 1700000000000 ≥ 1000 ∧
      main
        { goatId := some "0123456789abcdef0123456789abcdef",
          goatKey := some "0123456789abcdef0123456789abcdef",
          initialFetch := .response 200 (.object [("eu", "https://eu.example/report")]),
          file := some "8640000000000001", now := 1700000000000, random := ⟨1, 1⟩,
          nowAfterSleep := 1700000040000 } = none) ∧
      (main
        { goatId := some "0123456789abcdef0123456789abcdef",
          goatKey := some "0123456789abcdef0123456789abcdef",
          initialFetch := .response 200 (.object [("eu", "https://eu.example/report")]),
          file := some "1702147483648", now := 1700000000000, random := ⟨1, 1⟩,
          nowAfterSleep := 1700000040000 }).map
        (fun p => (p.1.branch, p.1.sleepMs, setTimeoutDelay p.1.sleepMs)) =
        some (.resuming, 2147483648, 1) ∧
      (main
        { goatId := some "0123456789abcdef0123456789abcdef",
          goatKey := some "0123456789abcdef0123456789abcdef",
          initialFetch := .response 200 (.object [("eu", "https://eu.example/report")]),
          file := some "1700000060000", now := 1700000000000, random := ⟨1, 1⟩,
          nowAfterSleep := 1700000040000 }).map
        (fun p => (p.1.branch, p.1.sleepMs, setTimeoutDelay p.1.sleepMs)) =
        some (.resuming, 60000, 60000) := by
  refine ⟨⟨by decide, by decide, by decide⟩, by decide, by decide⟩

/-- C4: the startup does not start fresh on every saved target in the past.  With
`-8640000000000001` in the timestamp file, a target that is not after the clock, the
log of the loaded target throws and the process exits with status 1, where the stale
target `1699999990000` leads to the randomized sleep and to the target of the clock
read after it plus 60000. -/
theorem stale_target_beyond_date_range_exits :
    loadTimestamp (some "-8640000000000001") = .num (-8640000000000001) ∧
      (-8640000000000001 : Int) ≤ 1700000000000 ∧
      main
        { goatId := some "0123456789abcdef0123456789abcdef",
          goatKey := some "0123456789abcdef0123456789abcdef",
          initialFetch := .response 200 (.object [("eu", "https://eu.example/report")]),
          file := some "-8640000000000001", now := 1700000000000, random := ⟨1, 1⟩,
          nowAfterSleep := 1700000040000 } = none ∧
      (main
        { goatId := some "0123456789abcdef0123456789abcdef",
          goatKey := some "0123456789abcdef0123456789abcdef",
          initialFetch := .response 200 (.object [("eu", "https://eu.example/report")]),
          file := some "1699999990000", now := 1700000000000, random := ⟨1, 1⟩,
          nowAfterSleep := 1700000040000 }).map (fun p => p.1) =
        some { branch := .freshStart, sleepMs := 40000, randomDraws := 1,
               nextTargetTime := 1700000100000 } := by
  refine ⟨by decide, by decide, by decide, by decide⟩

theorem loadTimestamp_numberToString (T : Int) (hT : 0 < T) (hsafe : T < 2 ^ 53)
    (g : List Char) (hg : ∀ x tl, g = x :: tl → isRadixDigit 10 x = false) :
    loadTimestamp (some (String.mk ((numberToString T).data ++ g))) = .num T :=
  parseInt_numberToString_append T hT hsafe g hg

theorem numberToString_decimal (T : Int) (hT : 0 < T) (hsafe : T < 2 ^ 53) :
    (numberToString T).data.all (isRadixDigit 10) = true ∧
      (∃ c rest, (numberToString T).data = c :: rest ∧ c ≠ '0') ∧
      ((digitsValue 10 (numberToString T).data : Nat) : Int) = T := by
  obtain ⟨m, rfl⟩ := Int.eq_ofNat_of_zero_le (le_of_lt hT)
  have hm : 0 < m := by exact_mod_cast hT
  have hm53 : m < 2 ^ 53 := by exact_mod_cast hsafe
  obtain ⟨hall, hval, c, rest, hcr, hc0⟩ := toDigits_spec m
  rw [numberToString_of_lt m hm53]
  refine ⟨List.all_eq_true.mpr hall, ⟨c, rest, hcr, hc0 hm⟩, ?_⟩
  rw [hval]

theorem date_range_lt (T : Int) (hmax : T ≤ 8640000000000000) : T < 2 ^ 53 :=
  lt_of_le_of_lt hmax (by norm_num)

/-- C7, as stated, fails: a timestamp file whose content begins with digits and goes
on with garbage is read as the integer its digits denote, and the startup resumes
at it. -/
theorem digits_then_garbage_resumes :
    loadTimestamp (some "1700000060000garbage") = .num 1700000060000 ∧
      (main
        { goatId := some "0123456789abcdef0123456789abcdef",
          goatKey := some "0123456789abcdef0123456789abcdef",
          initialFetch := .response 200 (.object [("eu", "https://eu.example/report")]),
          file := some "1700000060000garbage", now := 1700000000000, random := ⟨0, 0⟩,
          nowAfterSleep := 0 }).map (fun p => p.1) =
        some { branch := .resuming, sleepMs := 60000, randomDraws := 0,
               nextTargetTime := 1700000060000 } := by
  constructor
  · decide
  · decide

/-- C7, amended: when the timestamp file cannot be read, or `parseInt` finds no
number at the start of its content, the startup is the one of a process without
continuation: the fresh start arm, its randomized sleep and
`nextTargetTime = now + 60000`, never the resuming arm.  Content that begins with the
decimal digits of a positive integer T that a `Date` holds (at most 8.64e15) and
goes on with anything that does not start with a digit is read as T, and resumes at
T when `T - now ≥ 1000`. -/
theorem unreadable_file_starts_fresh (env : StartupEnv) (st : Startup) (s0 : SchedulerState)
    (hmain : main env = some (st, s0))
    (hfile : env.file = none ∨ ∃ content, env.file = some content ∧ parseInt content = .nan) :
    some st = startup .null env.now env.random env.nowAfterSleep ∧
      st.branch = .freshStart ∧ st.branch ≠ .resuming ∧
      st.sleepMs = initialSleep env.random ∧ st.randomDraws = 1 ∧
      st.nextTargetTime = env.nowAfterSleep + 60000 ∧
      s0.nextTargetTime = env.nowAfterSleep + 60000 ∧
      (∀ (T : Int) (garbage : List Char), 0 < T → T ≤ 8640000000000000 →
        (∀ x tl, garbage = x :: tl → isRadixDigit 10 x = false) →
        loadTimestamp (some (String.mk ((numberToString T).data ++ garbage))) = .num T ∧
        ∀ (now : Int) (random : UnitDouble) (nowAfterSleep : Int), T - now ≥ 1000 →
          startup (loadTimestamp (some (String.mk ((numberToString T).data ++ garbage))))
            now random nowAfterSleep =
            some { branch := .resuming, sleepMs := T - now, randomDraws := 0,
                   nextTargetTime := T }) := by
  obtain ⟨_, _, _, hst, _, hnt, _⟩ := main_eq_some env st s0 hmain
  have hload : loadTimestamp env.file = .null ∨ loadTimestamp env.file = .nan := by
    rcases hfile with h | ⟨content, h, hnan⟩
    · left; rw [h]; rfl
    · right; rw [h]; exact hnan
  have hst2 : startup .null env.now env.random env.nowAfterSleep = some st := by
    rcases hload with h | h
    · rw [← hst, h]
    · rw [← hst, h]; rfl
  have hst3 : st =
      { branch := .freshStart, sleepMs := initialSleep env.random, randomDraws := 1,
        nextTargetTime := env.nowAfterSleep + 60000 } := by
    have : startup .null env.now env.random env.nowAfterSleep =
        some { branch := .freshStart, sleepMs := initialSleep env.random,
               randomDraws := 1, nextTargetTime := env.nowAfterSleep + 60000 } := rfl
    rw [this, Option.some.injEq] at hst2
    exact hst2.symm
  refine ⟨hst2.symm, by rw [hst3], by rw [hst3]; simp, by rw [hst3], by rw [hst3],
    by rw [hst3], by rw [hnt, hst3], ?_⟩
  intro T garbage hT hmax hg
  have hl := loadTimestamp_numberToString T hT (date_range_lt T hmax) garbage hg
  refine ⟨hl, fun now random nowAfterSleep h => ?_⟩
  rw [hl, startup_resuming T now random nowAfterSleep hT hmax h]

/-- A process that finds the content `corrupt` in the timestamp file starts as one
that finds no file. -/
theorem unreadable_file_starts_fresh_witness :
    parseInt "corrupt" = .nan ∧
      some { branch := .freshStart, sleepMs := 40000, randomDraws := 1,
             nextTargetTime := 1700000100000 } =
        startup .null 1700000000000 ⟨1, 1⟩ 1700000040000 :=
  ⟨by decide,
    (unreadable_file_starts_fresh
      { goatId := some "0123456789abcdef0123456789abcdef",
        goatKey := some "0123456789abcdef0123456789abcdef",
        initialFetch := .response 200 (.object [("eu", "https://eu.example/report")]),
        file := some "corrupt", now := 1700000000000, random := ⟨1, 1⟩,
        nowAfterSleep := 1700000040000 }
      { branch := .freshStart, sleepMs := 40000, randomDraws := 1,
        nextTargetTime := 1700000100000 }
      { endpoints := some [("eu", "https://eu.example/report")], cycleCount := 0,
        nextTargetTime := 1700000100000, file := some "corrupt" }
      (by decide) (Or.inr ⟨"corrupt", rfl, by decide⟩)).1⟩

/-- C10, as stated, fails inside its range: the target `2 ^ 69`, below `10 ^ 21`, is
written with the sixteen digits that tell its double from the next one and zeros
after them, which is not the decimal representation of the target; and the target
`8640000000000001` is written in full and read back, but a process restarted
before it exits instead of resuming. -/
theorem large_target_not_written_in_full :
    (590295810358705651712 : Int) = 2 ^ 69 ∧ (590295810358705651712 : Int) < 10 ^ 21 ∧
      saveTimestamp none true 590295810358705651712 = some "590295810358705700000" ∧
      (digitsValue 10 "590295810358705700000".data : Int) ≠ 590295810358705651712 ∧
      loadTimestamp (saveTimestamp none true 8640000000000001) = .num 8640000000000001 ∧
      main
        { goatId := some "0123456789abcdef0123456789abcdef",
          goatKey := some "0123456789abcdef0123456789abcdef",
          initialFetch := .response 200 (.object [("eu", "https://eu.example/report")]),
          file := saveTimestamp none true 8640000000000001, now := 1700000000000,
          random := ⟨1, 1⟩, nowAfterSleep := 1700000040000 } = none := by
  refine ⟨by norm_num, by norm_num, by decide, by decide, by decide, by decide⟩

/-- C10, amended: for a positive target T below `2 ^ 53`, `saveTimestamp` writes the
decimal digits of T (digits only, no leading zero, denoting T) and `loadTimestamp`
reads T back from them; a process restarted with `T - now ≥ 1000` resumes at exactly
T when a `Date` holds T (T at most 8.64e15); in particular the file a cycle writes
reads back as the `nextTargetTime` it leaves. -/
theorem save_load_round_trip (T : Int) (hT : 0 < T) (hsafe : T < 2 ^ 53)
    (file : Option String) :
    saveTimestamp file true T = some (numberToString T) ∧
      ((numberToString T).data.all (isRadixDigit 10) = true ∧
        (∃ c rest, (numberToString T).data = c :: rest ∧ c ≠ '0') ∧
        ((digitsValue 10 (numberToString T).data : Nat) : Int) = T) ∧
      loadTimestamp (saveTimestamp file true T) = .num T ∧
      (∀ (now : Int) (random : UnitDouble) (nowAfterSleep : Int),
        T ≤ 8640000000000000 → T - now ≥ 1000 →
        startup (loadTimestamp (saveTimestamp file true T)) now random nowAfterSleep =
          some { branch := .resuming, sleepMs := T - now, randomDraws := 0,
                 nextTargetTime := T }) ∧
      (∀ (s : SchedulerState) (env : CycleEnv), env.writeOk = true →
        (runReportCycle s env).state.nextTargetTime = T →
        loadTimestamp (runReportCycle s env).state.file = .num T) := by
  have hl : loadTimestamp (some (numberToString T)) = .num T := by
    have := loadTimestamp_numberToString T hT hsafe [] (fun x tl h => by cases h)
    simpa using this
  refine ⟨rfl, numberToString_decimal T hT hsafe, hl, ?_, ?_⟩
  · intro now random nowAfterSleep hmax h
    have hs : saveTimestamp file true T = some (numberToString T) := rfl
    rw [hs, hl, startup_resuming T now random nowAfterSleep hT hmax h]
  · intro s env hw hn
    have hf : (runReportCycle s env).state.file =
        saveTimestamp s.file env.writeOk (runReportCycle s env).state.nextTargetTime := rfl
    rw [hf, hw, hn]
    exact hl

/-- The target 1700000060000 is written as its thirteen digits and read back. -/
theorem save_load_round_trip_witness :
    saveTimestamp none true 1700000060000 = some "1700000060000" ∧
      loadTimestamp (saveTimestamp none true 1700000060000) = .num 1700000060000 :=
  ⟨by decide, (save_load_round_trip 1700000060000 (by decide) (by norm_num) none).2.2.1⟩
/-! ## Report outcomes and the heuristic -/

theorem deviationOrZero_eq (msDeviation : Option Int) :
    deviationOrZero msDeviation = .num (msDeviation.getD 0) := by
  cases msDeviation with
  | none => rfl
  | some d =>
    by_cases hd : d = 0
    · subst hd; rfl
    · simp [deviationOrZero, JsValue.truthy, hd]

theorem sendGoatReport_success (ev : HttpReport) :
    (sendGoatReport ev).success = true ↔ ∃ name dev, ev = .response 200 (.value name dev) := by
  cases ev with
  | response statusCode body =>
    by_cases hs : statusCode = 200
    · subst hs
      cases body <;> simp [sendGoatReport]
    · simp [sendGoatReport, hs]
  | _ => simp [sendGoatReport]

theorem validDeviations_cons (r : ReportOutcome) (rs : List ReportOutcome) :
    validDeviations (r :: rs) =
      if (r.success && r.deviation.notNull) = true then r.deviation :: validDeviations rs
      else validDeviations rs := by
  unfold validDeviations
  rw [List.filter_cons]
  split_ifs <;> rfl

theorem validDeviations_sendGoatReport (exchanges : List HttpReport) :
    validDeviations (exchanges.map sendGoatReport) = (keptDeviations exchanges).map JsValue.num := by
  induction exchanges with
  | nil => rfl
  | cons ev evs ih =>
    rw [List.map_cons, validDeviations_cons, ih]
    cases ev with
    | response statusCode body =>
      by_cases hs : statusCode = 200
      · subst hs
        cases body with
        | value name dev =>
          simp [sendGoatReport, keptDeviations, deviationOrZero_eq, JsValue.notNull]
        | jsonNull => simp [sendGoatReport, keptDeviations]
        | unparsable => simp [sendGoatReport, keptDeviations]
      · cases body <;> simp [sendGoatReport, keptDeviations, hs]
    | connectionError => simp [sendGoatReport, keptDeviations]
    | timeout => simp [sendGoatReport, keptDeviations]
    | invalidUrl => simp [sendGoatReport, keptDeviations]

theorem needsExtraDelay_congr (rs rs2 : List ReportOutcome)
    (h : validDeviations rs = validDeviations rs2) : needsExtraDelay rs = needsExtraDelay rs2 := by
  unfold needsExtraDelay
  rw [h]

theorem validDeviations_filter_success (results : List ReportOutcome) :
    validDeviations (results.filter (fun r => r.success)) = validDeviations results := by
  unfold validDeviations
  rw [List.filter_filter]
  congr 1
  apply List.filter_congr
  intro r _
  cases r.success <;> simp

theorem keptDeviations_zero_mem (exchanges : List HttpReport) (name : Option String)
    (h : HttpReport.response 200 (.value name none) ∈ exchanges) : (0 : Int) ∈ keptDeviations exchanges := by
  unfold keptDeviations
  rw [List.mem_filterMap]
  exact ⟨_, h, by simp⟩

theorem keptDeviations_eq_spec (exchanges : List HttpReport)
    (h : ∀ name, HttpReport.response 200 (.value name none) ∉ exchanges) :
    keptDeviations exchanges = specDeviationSet exchanges := by
  induction exchanges with
  | nil => rfl
  | cons ev evs ih =>
    have ih2 := ih (fun name hm => h name (List.mem_cons_of_mem _ hm))
    unfold keptDeviations specDeviationSet at *
    rw [List.filterMap_cons, List.filterMap_cons, ih2]
    cases ev with
    | response statusCode body =>
      cases body with
      | value name dev =>
        cases dev with
        | some d => rfl
        | none =>
          by_cases hs : statusCode = 200
          · subst hs
            exact absurd (List.mem_cons_self _ _) (h name)
          · simp [hs]
      | jsonNull => rfl
      | unparsable => rfl
    | connectionError => rfl
    | timeout => rfl
    | invalidUrl => rfl

/-- C5, as stated, fails: a success that reports 1500 and a success whose response
has no deviation field put 1500 and 0 in D, not 1500 alone, and the extra delay is 0
where the set of the specification gives 1000. -/
theorem missing_deviation_counts_as_zero :
    specDeviationSet
        [.response 200 (.value (some "goat") (some 1500)),
         .response 200 (.value (some "goat") none)] = [1500] ∧
      extraDelayOf (needsExtraDelay (successes [1500])) = 1000 ∧
      validDeviations
        ([.response 200 (.value (some "goat") (some 1500)),
          .response 200 (.value (some "goat") none)].map sendGoatReport) =
        [.num 1500, .num 0] ∧
      extraDelayOf (needsExtraDelay
        ([.response 200 (.value (some "goat") (some 1500)),
          .response 200 (.value (some "goat") none)].map sendGoatReport)) = 0 := by
  decide

/-- C5, amended: every successful exchange (status 200, a parsable body other than
`null`) contributes a value to D, the deviation field when the response has it and 0
when it has not; the extra delay is the one computed from these values, so it is 0 as
soon as one successful response lacks the field, and D is the set of the
specification when every successful response carries the field. -/
theorem successful_exchange_contributes (exchanges : List HttpReport) :
    validDeviations (exchanges.map sendGoatReport) = (keptDeviations exchanges).map JsValue.num ∧
      (needsExtraDelay (exchanges.map sendGoatReport) = true ↔
        keptDeviations exchanges ≠ [] ∧ (∀ d ∈ keptDeviations exchanges, 1000 < |d|) ∧
          (∃ d ∈ keptDeviations exchanges, |d| < 2000)) ∧
      extraDelayOf (needsExtraDelay (exchanges.map sendGoatReport)) =
        extraDelayOf (needsExtraDelay (successes (keptDeviations exchanges))) ∧
      (∀ name, HttpReport.response 200 (.value name none) ∈ exchanges →
        extraDelayOf (needsExtraDelay (exchanges.map sendGoatReport)) = 0) ∧
      ((∀ name, HttpReport.response 200 (.value name none) ∉ exchanges) →
        keptDeviations exchanges = specDeviationSet exchanges) := by
  have hv := validDeviations_sendGoatReport exchanges
  have hiff := needsExtraDelay_of_valid _ _ hv
  refine ⟨hv, hiff, ?_, ?_, keptDeviations_eq_spec exchanges⟩
  · rw [needsExtraDelay_congr _ (successes (keptDeviations exchanges))
      (by rw [hv, validDeviations_successes])]
  · intro name hmem
    rw [extraDelayOf_eq_zero, ← Bool.not_eq_true, hiff]
    rintro ⟨_, hall, _⟩
    have := hall 0 (keptDeviations_zero_mem exchanges name hmem)
    simp at this

/-- A success that reports 1500 next to a success without the deviation field: no
extra delay. -/
theorem successful_exchange_contributes_witness :
    extraDelayOf (needsExtraDelay
      ([.response 200 (.value (some "goat") (some 1500)),
        .response 200 (.value (some "goat") none)].map sendGoatReport)) = 0 :=
  (successful_exchange_contributes
    [.response 200 (.value (some "goat") (some 1500)),
     .response 200 (.value (some "goat") none)]).2.2.2.1 (some "goat") (by decide)

/-- C6: the decision of the heuristic on a list of outcomes is its decision on the
list without the failed outcomes, whatever their deviation field holds; an exchange
succeeds only on status 200 with a parsable body other than `null`, and every other
path (another status, an unparsable body, a connection error, a timeout, an invalid
URL) resolves to an outcome with `success = false`; a cycle in which exchanges fail
still gets one outcome for each target and its `needsExtraDelay`. -/
theorem failed_exchanges_are_isolated (results : List ReportOutcome) :
    needsExtraDelay results = needsExtraDelay (results.filter (fun r => r.success)) ∧
      validDeviations results = validDeviations (results.filter (fun r => r.success)) ∧
      (∀ ev : HttpReport, (sendGoatReport ev).success = true ↔
        ∃ name dev, ev = .response 200 (.value name dev)) ∧
      (∀ (statusCode : Nat) (body : ReportBody), statusCode ≠ 200 →
        (sendGoatReport (.response statusCode body)).success = false) ∧
      (∀ statusCode : Nat, (sendGoatReport (.response statusCode .unparsable)).success = false) ∧
      (sendGoatReport .connectionError).success = false ∧
      (sendGoatReport .timeout).success = false ∧
      (sendGoatReport .invalidUrl).success = false ∧
      (∀ (exchange : String → String → HttpReport) (es : EndpointSet),
        (dispatch exchange es).length = es.length) ∧
      (∀ (env : CycleEnv) (es : EndpointSet), env.dispatchError = none →
        goatReportLoop env es =
          .ok (needsExtraDelay ((dispatch env.exchange es).filter (fun r => r.success)))) := by
  have hv := (validDeviations_filter_success results).symm
  refine ⟨needsExtraDelay_congr _ _ hv, hv, sendGoatReport_success, ?_, ?_, rfl, rfl, rfl, ?_, ?_⟩
  · intro statusCode body hs
    simp [sendGoatReport, hs]
  · intro statusCode
    by_cases hs : statusCode = 200 <;> simp [sendGoatReport, hs]
  · intro exchange es
    simp [dispatch]
  · intro env es he
    simp only [goatReportLoop, he]
    rw [needsExtraDelay_congr _ _ (validDeviations_filter_success _).symm]

/-- Two successes at 1500 and 1800 among a failure that carries a number, a
failure without deviation and a failed status: the failures change nothing. -/
theorem failed_exchanges_are_isolated_witness :
    needsExtraDelay [⟨true, .num 1500⟩, ⟨false, .num 10⟩, ⟨false, .undefined⟩, ⟨true, .num 1800⟩] =
        needsExtraDelay [⟨true, .num 1500⟩, ⟨true, .num 1800⟩] ∧
      (sendGoatReport (.response 503 (.value none (some 1500)))).success = false :=
  ⟨(failed_exchanges_are_isolated
      [⟨true, .num 1500⟩, ⟨false, .num 10⟩, ⟨false, .undefined⟩, ⟨true, .num 1800⟩]).1,
    (failed_exchanges_are_isolated []).2.2.2.1 503 (.value none (some 1500)) (by decide)⟩

/-! ## The refresh of the endpoints -/

theorem dispatchReturns_of_none (s : SchedulerState) (env : CycleEnv)
    (h : env.dispatchError = none) : dispatchReturns s env = true := by
  simp [dispatchReturns, h]

theorem runReportCycle_count_of_returns (s : SchedulerState) (env : CycleEnv)
    (h : dispatchReturns s env = true) :
    (runReportCycle s env).state.cycleCount = s.cycleCount + 1 ∧
      (runReportCycle s env).body.refreshAttempted = decide ((s.cycleCount + 1) % 10 = 0) := by
  obtain ⟨x, d, hb⟩ := cycleBody_of_returns s env h
  simp only [runReportCycle, hb, refreshStep_cycleCount, refreshStep_refreshAttempted, and_self]

theorem runReportCycle_count_of_throws (s : SchedulerState) (env : CycleEnv)
    (h : dispatchReturns s env = false) :
    (runReportCycle s env).state.cycleCount = s.cycleCount ∧
      (runReportCycle s env).body.refreshAttempted = false := by
  simp only [runReportCycle, cycleBody_of_throws s env h, and_self]

theorem refreshTrace_getElem (envs : List CycleEnv) : ∀ (s : SchedulerState),
    (∀ env ∈ envs, env.dispatchError = none) → ∀ i, i < envs.length →
    (refreshTrace s envs)[i]? = some (decide ((s.cycleCount + i + 1) % 10 = 0)) := by
  induction envs with
  | nil => intro s _ i hi; simp at hi
  | cons env envs ih =>
    intro s hall i hi
    have hret := dispatchReturns_of_none s env (hall env (List.mem_cons_self _ _))
    obtain ⟨hc, hr⟩ := runReportCycle_count_of_returns s env hret
    cases i with
    | zero => simp [refreshTrace, hr]
    | succ j =>
      have hj : j < envs.length := by simpa using hi
      have := ih (runReportCycle s env).state
        (fun e he => hall e (List.mem_cons_of_mem _ he)) j hj
      simp only [refreshTrace, List.getElem?_cons_succ, this, hc]
      congr 3
      omega

theorem hasEndpoints_of_length (es : EndpointSet) (h : 0 < es.length) :
    hasEndpoints (some es) = true := by
  simp [hasEndpoints, h]

theorem throwing_cycles_stall (envs : List CycleEnv) : ∀ (s : SchedulerState),
    hasEndpoints s.endpoints = true → (∀ env ∈ envs, env.dispatchError.isNone = false) →
    (runCycles s envs).cycleCount = s.cycleCount ∧
      refreshTrace s envs = List.replicate envs.length false := by
  induction envs with
  | nil => intro s _ _; exact ⟨rfl, rfl⟩
  | cons env envs ih =>
    intro s hs hall
    have hthrow : dispatchReturns s env = false := by
      simp [dispatchReturns, hs, hall env (List.mem_cons_self _ _)]
    obtain ⟨hc, hr⟩ := runReportCycle_count_of_throws s env hthrow
    have hbody := cycleBody_of_throws s env hthrow
    have hend : (runReportCycle s env).state.endpoints = s.endpoints := by
      simp only [runReportCycle, hbody]
    obtain ⟨ih1, ih2⟩ := ih (runReportCycle s env).state (by rw [hend]; exact hs)
      (fun e he => hall e (List.mem_cons_of_mem _ he))
    refine ⟨?_, ?_⟩
    · simp only [runCycles]; rw [ih1, hc]
    · simp only [refreshTrace, hr, ih2, List.length_cons, List.replicate_succ]

/-- C8: the refresh does not come every tenth cycle when the dispatch throws.  With
400000 endpoints `Math.max(...)` in `goatReportLoop` throws a `RangeError` in every
cycle; the `catch` clause is reached before `cycleCount++`, so that after ten cycles
`cycleCount` is still 0 and none of them, the tenth included, has attempted a
refresh.  A process with one endpoint whose exchanges all fail, and a process with no
endpoint at all, count their ten cycles and attempt the refresh in the tenth. -/
theorem oversized_dispatch_stalls_refresh :
    (runCycles
        { endpoints := some ((List.range 400000).map
            (fun i => (Nat.repr i, "https://eu.example/report"))),
          cycleCount := 0, nextTargetTime := 1700000060000, file := none }
        (List.replicate 10
          { exchange := fun _ _ => .timeout,
            dispatchError := some "RangeError: Maximum call stack size exceeded",
            refresh := .timeout, writeOk := true, now := 1700000060100 })).cycleCount = 0 ∧
      refreshTrace
        { endpoints := some ((List.range 400000).map
            (fun i => (Nat.repr i, "https://eu.example/report"))),
          cycleCount := 0, nextTargetTime := 1700000060000, file := none }
        (List.replicate 10
          { exchange := fun _ _ => .timeout,
            dispatchError := some "RangeError: Maximum call stack size exceeded",
            refresh := .timeout, writeOk := true, now := 1700000060100 }) =
        List.replicate 10 false ∧
      refreshTrace
        { endpoints := some [("eu", "https://eu.example/report")],
          cycleCount := 0, nextTargetTime := 1700000060000, file := none }
        (List.replicate 10
          { exchange := fun _ _ => .timeout, dispatchError := none,
            refresh := .timeout, writeOk := true, now := 1700000060100 }) =
        List.replicate 9 false ++ [true] ∧
      refreshTrace
        { endpoints := some [],
          cycleCount := 0, nextTargetTime := 1700000060000, file := none }
        (List.replicate 10
          { exchange := fun _ _ => .timeout, dispatchError := none,
            refresh := .timeout, writeOk := true, now := 1700000060100 }) =
        List.replicate 9 false ++ [true] := by
  have hbig : hasEndpoints (some ((List.range 400000).map
      (fun i => (Nat.repr i, "https://eu.example/report")))) = true :=
    hasEndpoints_of_length _ (by simp)
  have h := throwing_cycles_stall
    (List.replicate 10
      { exchange := fun _ _ => .timeout,
        dispatchError := some "RangeError: Maximum call stack size exceeded",
        refresh := .timeout, writeOk := true, now := 1700000060100 })
    { endpoints := some ((List.range 400000).map
        (fun i => (Nat.repr i, "https://eu.example/report"))),
      cycleCount := 0, nextTargetTime := 1700000060000, file := none }
    hbig (by intro env he; rw [List.eq_of_mem_replicate he]; rfl)
  refine ⟨h.1, ?_, by decide, by decide⟩
  rw [h.2]; rfl

theorem fetchEndpoints_eq_some (ev : HttpEvent) (es : EndpointSet) :
    fetchEndpoints ev = some es ↔ ev = .response 200 (.object es) := by
  cases ev with
  | response statusCode body =>
    by_cases hs : statusCode = 200
    · subst hs
      cases body <;> simp [fetchEndpoints, makeRequest]
    · cases body <;> simp [fetchEndpoints, makeRequest, hs]
  | _ => simp [fetchEndpoints, makeRequest]

theorem cycleBody_endpoints (s : SchedulerState) (env : CycleEnv) :
    (cycleBody s env).endpoints = s.endpoints ∨
      ((cycleBody s env).refreshAttempted = true ∧
        ∃ es, fetchEndpoints env.refresh = some es ∧ (cycleBody s env).endpoints = some es) := by
  cases h : dispatchReturns s env with
  | false => rw [cycleBody_of_throws s env h]; exact Or.inl rfl
  | true =>
    obtain ⟨x, d, hb⟩ := cycleBody_of_returns s env h
    rw [hb, refreshStep_endpoints, refreshStep_refreshAttempted]
    split_ifs with hc
    · cases hf : fetchEndpoints env.refresh with
      | none => exact Or.inl rfl
      | some es => exact Or.inr ⟨by simp [hc], es, rfl, rfl⟩
    · exact Or.inl rfl

/-- C9: in a cycle that attempts a refresh and whose `fetchEndpoints` returns `null`
(as it does on everything but a response of status 200 whose body parses to an
object), the endpoints after the cycle are the endpoints before it, and the cycle
still advances `nextTargetTime` and schedules the next cycle; in any cycle the
endpoints are either left as they were or replaced by the whole result of a
successful refresh. -/
theorem failed_refresh_keeps_endpoints (s : SchedulerState) (env : CycleEnv)
    (hattempt : (runReportCycle s env).body.refreshAttempted = true)
    (hfail : fetchEndpoints env.refresh = none) :
    (runReportCycle s env).state.endpoints = s.endpoints ∧
      (runReportCycle s env).state.nextTargetTime =
        s.nextTargetTime + 60000 + (runReportCycle s env).body.extraDelay ∧
      s.nextTargetTime < (runReportCycle s env).state.nextTargetTime ∧
      (runReportCycle s env).delay =
        max 0 ((runReportCycle s env).state.nextTargetTime - env.now) ∧
      (runReportCycle s env).state.cycleCount = s.cycleCount + 1 ∧
      (∀ ev : HttpEvent, fetchEndpoints ev = none ↔
        ¬ ∃ es, ev = .response 200 (.object es)) ∧
      (∀ (s2 : SchedulerState) (env2 : CycleEnv),
        (runReportCycle s2 env2).state.endpoints = s2.endpoints ∨
          ((runReportCycle s2 env2).body.refreshAttempted = true ∧
            ∃ es, fetchEndpoints env2.refresh = some es ∧
              (runReportCycle s2 env2).state.endpoints = some es)) := by
  have hret : dispatchReturns s env = true := by
    cases h : dispatchReturns s env with
    | true => rfl
    | false =>
      rw [(runReportCycle_count_of_throws s env h).2] at hattempt
      cases hattempt
  refine ⟨?_, ?_, runReportCycle_lt s env, rfl, (runReportCycle_count_of_returns s env hret).1,
    ?_, fun s2 env2 => cycleBody_endpoints s2 env2⟩
  · rcases cycleBody_endpoints s env with h | ⟨_, es, hes, _⟩
    · exact h
    · rw [hfail] at hes; cases hes
  · simp only [runReportCycle]; omega
  · intro ev
    rw [← not_iff_not, not_not]
    constructor
    · intro h
      obtain ⟨es, hes⟩ := Option.ne_none_iff_exists'.mp h
      exact ⟨es, (fetchEndpoints_eq_some ev es).mp hes⟩
    · rintro ⟨es, hes⟩
      rw [(fetchEndpoints_eq_some ev es).mpr hes]
      simp

/-- The tenth cycle of a process whose endpoints request times out keeps its one
endpoint. -/
theorem failed_refresh_keeps_endpoints_witness :
    (runReportCycle
      { endpoints := some [("eu", "https://eu.example/report")], cycleCount := 9,
        nextTargetTime := 1700000060000, file := none }
      { exchange := fun _ _ => .timeout, dispatchError := none, refresh := .timeout,
        writeOk := true, now := 1700000060100 }).state.endpoints =
      some [("eu", "https://eu.example/report")] :=
  (failed_refresh_keeps_endpoints
    { endpoints := some [("eu", "https://eu.example/report")], cycleCount := 9,
      nextTargetTime := 1700000060000, file := none }
    { exchange := fun _ _ => .timeout, dispatchError := none, refresh := .timeout,
      writeOk := true, now := 1700000060100 }
    (by decide) (by decide)).1

end UptimeGoat
